import Mathlib

/-!
Verification of the qubits sparse quantum-circuit simulator.

A shallow embedding of the `qubits` JavaScript library: the sparse
state-vector simulator (`src/core/simulator.js`), the circuit optimizer
(`src/compiler/optimizer.js`), the transpiler (`src/compiler/transpiler.js`),
the qubit manager and the operation recorder (`src/api/*.js`).

Modelling conventions:
* JavaScript numbers are modelled as elements of an arbitrary linear ordered
  field `K` (the program instance is `K = ℝ`); floating-point rounding is not
  modelled.
* Qubit handles (JS `Symbol`s) are modelled as natural numbers; a handle is
  opaque, only identity is used.
* Basis indices (JS `BigUint64`) are modelled as `ℕ` with bitwise operations;
  all reachable indices are below `2 ^ 64` so no truncation is needed.
* The parallel typed-array buffers plus `activeCount` of the simulator are
  modelled as a list of entries; the per-gate collision map is modelled by
  lookup-or-append accumulation into the output list.
* `Math.random()` is modelled by an explicit draw stream `rng : ℕ → K`
  together with a position counter threaded through the execution.
* `Math.sqrt` is taken as a function parameter `sqrt : K → K` (the program
  instance is `Real.sqrt`); none of the stated properties depend on its
  values.
* The gate-matrix catalog `GATES` (`src/core/gate-defs.js`) is a separate
  module; the simulator receives it as a parameter `gates`.  The concrete
  catalog `GATES0` below lists the catalog's entries that have exact
  field-valued matrices (the trigonometric families are not needed by any
  concrete execution in this file).
-/

namespace Qubits

/-- A qubit reference in an IR node: a single handle, an ordered tuple of
handles (JS array), or JS `null` (used by `IF`/`WHILE` nodes). -/
inductive QubitRef where
  | single (q : ℕ)
  | tuple (qs : List ℕ)
  | nullq
deriving DecidableEq

/-- The condition `{qubit, value}` attached to an `IF`/`WHILE` node. -/
structure Condition where
  qubit : ℕ
  value : ℕ
deriving DecidableEq

/-- An IR instruction node `{gate, qubit, params, condition, body}`.
The `timestamp` field of the source is wall-clock metadata and is not
modelled. -/
inductive Instr (K : Type) where
  | mk (gate : String) (qubit : QubitRef) (params : List K)
      (cond : Option Condition) (body : List (Instr K))

/-- The `gate` field of an instruction. -/
def Instr.gate {K : Type} : Instr K → String
  | .mk g _ _ _ _ => g

/-- The `qubit` field of an instruction. -/
def Instr.qubit {K : Type} : Instr K → QubitRef
  | .mk _ q _ _ _ => q

/-- The `params` field of an instruction. -/
def Instr.params {K : Type} : Instr K → List K
  | .mk _ _ p _ _ => p

/-- The `condition` field of an instruction. -/
def Instr.cond {K : Type} : Instr K → Option Condition
  | .mk _ _ _ c _ => c

/-- The `body` field of an instruction. -/
def Instr.body {K : Type} : Instr K → List (Instr K)
  | .mk _ _ _ _ b => b

/-- Build a plain gate instruction (no condition, no body), as the recorder's
`addOp` does for ordinary operations. -/
def mkInstr {K : Type} (g : String) (q : QubitRef) (p : List K) : Instr K :=
  .mk g q p none []

/-- JS `Array.isArray(op.qubit)`. -/
def QubitRef.isArr : QubitRef → Bool
  | .tuple _ => true
  | _ => false

/-- The list of handles referenced: `Array.isArray(q) ? q : [q]`.  A `null`
reference contributes no real handle (the JS value would be `[null]`; the
`null` pseudo-handle never meets a real handle, so it is dropped). -/
def QubitRef.refList : QubitRef → List ℕ
  | .single q => [q]
  | .tuple qs => qs
  | .nullq => []

/-- JS `ref[0]`: the first element of an array reference, `undefined`
(`none`) for a non-array reference or an empty array. -/
def QubitRef.idx0 : QubitRef → Option ℕ
  | .tuple qs => qs.head?
  | _ => none

/-- One active entry of the sparse state: a basis index and the complex
amplitude `(re, im)` stored for it. -/
structure Entry (K : Type) where
  idx : ℕ
  re : K
  im : K

/-- The noise profile (`src/core/noise-model.js`). -/
structure NoiseModel (K : Type) where
  gateError : K
  readoutError : K
  t1 : K
  t2 : K

/-- The state of a `Simulator` object: the active entries (parallel buffers
plus `activeCount` in the source), the handle-to-bit-position map, the
optional noise profile, the optional manual epsilon override, and the
measurement result cache `#results`. -/
structure SimState (K : Type) where
  entries : List (Entry K)
  qubitMap : ℕ → ℕ
  noiseModel : Option (NoiseModel K)
  epsilon : Option K
  results : List (ℕ × ℕ)

variable {K : Type} [LinearOrderedField K]

/-- JS `Map.get` on the result cache: the value stored for `q`, if any. -/
def resultsFind (l : List (ℕ × ℕ)) (q : ℕ) : Option ℕ :=
  (l.find? (fun p => p.1 = q)).map (fun p => p.2)

/-- JS `Map.set` on the result cache: overwrite the binding for `q` or add it. -/
def resultsSet (l : List (ℕ × ℕ)) (q v : ℕ) : List (ℕ × ℕ) :=
  if l.any (fun p => p.1 = q) then
    l.map (fun p => if p.1 = q then (q, v) else p)
  else l ++ [(q, v)]

/-- The `memoryBudget` constant of the simulator. -/
def memoryBudget : ℕ := 5000

/-- The `Simulator` constructor: position map from the qubit list, noise
profile, epsilon override via `options.epsilon || null` (so a `0` override is
falsy and becomes `null`), and the seed state `{index 0 ↦ amplitude (1,0)}`. -/
def Simulator.init (qs : List ℕ) (noise : Option (NoiseModel K))
    (eps : Option K) : SimState K :=
  { entries := [⟨0, 1, 0⟩]
    qubitMap := fun q => qs.indexOf q
    noiseModel := noise
    epsilon := match eps with
      | some e => if e = 0 then none else some e
      | none => none
    results := [] }

/-- JS `#getEffectiveEpsilon`: the manual override if present, otherwise
`100 × (1e-15 × max(1, activeCount / memoryBudget))`. -/
def getEffectiveEpsilon (st : SimState K) : K :=
  match st.epsilon with
  | some e => e
  | none =>
    let overBudgetMultiplier : K :=
      max 1 ((st.entries.length : K) / (memoryBudget : K))
    let currentPruneThreshold : K := (1 / 10 ^ 15) * overBudgetMultiplier
    currentPruneThreshold * 100

/-- JS `#getProb1`: the summed squared magnitude over entries whose target bit
is set. -/
def getProb1 (st : SimState K) (qubitId : ℕ) : K :=
  let pos := st.qubitMap qubitId
  st.entries.foldl
    (fun acc e => if e.idx.testBit pos then acc + (e.re ^ 2 + e.im ^ 2) else acc) 0

/-- JS `isZero(qubitId)`: whether the probability of reading 1 is strictly below
the effective epsilon. -/
def isZero (st : SimState K) (qubitId : ℕ) : Bool :=
  getProb1 st qubitId < getEffectiveEpsilon st

/-- JS `#prune`: drop entries whose squared magnitude is below
`1e-15 × max(1, activeCount / memoryBudget)`. -/
def pruneState (st : SimState K) : SimState K :=
  let overBudgetMultiplier : K :=
    max 1 ((st.entries.length : K) / (memoryBudget : K))
  let threshold : K := (1 / 10 ^ 15) * overBudgetMultiplier
  { st with entries := st.entries.filter (fun e => threshold ≤ e.re ^ 2 + e.im ^ 2) }

/-- JS `#collapse(qubitId, result, prob1)`: keep the entries matching the
outcome bit and rescale them by the square root of the outcome
probability. -/
def collapse (sqrt : K → K) (st : SimState K) (qubitId : ℕ) (result : ℕ)
    (prob1 : K) : SimState K :=
  let pos := st.qubitMap qubitId
  let norm : K := if result = 1 then sqrt prob1 else sqrt (1 - prob1)
  let keep : Entry K → Bool := fun e =>
    decide ((result = 1 ∧ e.idx.testBit pos) ∨ (result = 0 ∧ ¬ e.idx.testBit pos))
  { st with entries :=
      (st.entries.filter keep).map (fun e => ⟨e.idx, e.re / norm, e.im / norm⟩) }

/-- JS `measure(qubitId)`: compute `p₁`, optionally invert it on a readout-error
draw (only when a noise profile is present), sample the result, collapse.
Returns the result, the new state and the new draw position. -/
def measure (sqrt : K → K) (rng : ℕ → K) (st : SimState K) (n : ℕ)
    (qubitId : ℕ) : ℕ × SimState K × ℕ :=
  let prob1 := getProb1 st qubitId
  let pn : K × ℕ := match st.noiseModel with
    | some nm => (if rng n < nm.readoutError then 1 - prob1 else prob1, n + 1)
    | none => (prob1, n)
  let result : ℕ := if rng pn.2 < pn.1 then 1 else 0
  (result, collapse sqrt st qubitId result pn.1, pn.2 + 1)

/-- JS `#normalize`: rescale every amplitude by the square root of the total
squared magnitude. -/
def normalize (sqrt : K → K) (st : SimState K) : SimState K :=
  let normSq := st.entries.foldl (fun a e => a + (e.re ^ 2 + e.im ^ 2)) 0
  let norm := sqrt normSq
  { st with entries := st.entries.map (fun e => ⟨e.idx, e.re / norm, e.im / norm⟩) }

/-- Clear bit `pos` of `n` (JS `idx & ~bit`). -/
def clearBit (n pos : ℕ) : ℕ :=
  if n.testBit pos then n ^^^ (1 <<< pos) else n

/-- The collision-map accumulation (`#accumulate` / the inline collision-map
code of the gate loops): add the contribution `(re, im)` into the slot for
basis index `idx`, creating a zero-initialised slot at the end of the buffer
when the index has not been seen in this gate step. -/
def scatterAdd (out : List (Entry K)) (idx : ℕ) (re im : K) : List (Entry K) :=
  if out.any (fun e => e.idx = idx) then
    out.map (fun e => if e.idx = idx then ⟨e.idx, e.re + re, e.im + im⟩ else e)
  else out ++ [⟨idx, re, im⟩]

/-- A gate-matrix catalog: flat row-major interleaved `(re, im)` entries, as
in `gate-defs.js`; parameterized families are functions of the params list. -/
def Catalog (K : Type) : Type := String → List K → List K

/-- JS `#updateState` merged with the collision-map lookup: accumulate
`matrix[row,col] * amp` into the destination slot. -/
def scatterMul (out : List (Entry K)) (tIdx : ℕ) (re im gRe gIm : K) :
    List (Entry K) :=
  scatterAdd out tIdx (re * gRe - im * gIm) (re * gIm + im * gRe)

/-- JS `applyGate(gateName, qubitId, params)`: scatter each active entry onto
the two target indices differing in the target bit, with `Z` specialised as
an in-place sign flip; then swap buffers and prune. -/
def applyGate (gates : Catalog K) (st : SimState K) (gateName : String)
    (qubitId : ℕ) (params : List K) : SimState K :=
  let pos := st.qubitMap qubitId
  let matrix := gates gateName params
  let step : List (Entry K) → Entry K → List (Entry K) := fun out e =>
    if gateName = "Z" then
      let sign : K := if e.idx.testBit pos then -1 else 1
      scatterAdd out e.idx (e.re * sign) (e.im * sign)
    else
      let col : ℕ := if e.idx.testBit pos then 1 else 0
      let base := clearBit e.idx pos
      let targets := [base, base ||| (1 <<< pos)]
      (List.range 2).foldl
        (fun out row =>
          let tIdx := targets.getD row 0
          let gIdx := (row * 2 + col) * 2
          scatterMul out tIdx e.re e.im (matrix.getD gIdx 0) (matrix.getD (gIdx + 1) 0))
        out
  pruneState { st with entries := st.entries.foldl step [] }

/-- JS `apply2QubitGate(gateName, q1, q2, params)`: 4 target rows per source
entry, with `CZ` specialised as a conditional sign flip and `CNOT`/`SWAP` as
index permutations; then swap buffers and prune. -/
def apply2QubitGate (gates : Catalog K) (st : SimState K) (gateName : String)
    (q1 q2 : ℕ) (params : List K) : SimState K :=
  let p1 := st.qubitMap q1
  let p2 := st.qubitMap q2
  let bit1 := (1 : ℕ) <<< p1
  let bit2 := (1 : ℕ) <<< p2
  let mask := bit1 ||| bit2
  let matrix := gates gateName params
  let step : List (Entry K) → Entry K → List (Entry K) := fun out e =>
    if gateName = "CZ" then
      let sign : K := if e.idx &&& mask = mask then -1 else 1
      scatterAdd out e.idx (e.re * sign) (e.im * sign)
    else if gateName = "CNOT" ∨ gateName = "SWAP" then
      let nextIdx :=
        if gateName = "CNOT" then
          if e.idx.testBit p1 then e.idx ^^^ bit2 else e.idx
        else
          if e.idx.testBit p1 ≠ e.idx.testBit p2 then e.idx ^^^ mask else e.idx
      scatterAdd out nextIdx e.re e.im
    else
      let col : ℕ := (if e.idx.testBit p1 then 2 else 0) + (if e.idx.testBit p2 then 1 else 0)
      let base := clearBit (clearBit e.idx p1) p2
      let offsets : List ℕ := [0, bit2, bit1, mask]
      (List.range 4).foldl
        (fun out row =>
          let tIdx := base ||| offsets.getD row 0
          let gIdx := (row * 4 + col) * 2
          scatterMul out tIdx e.re e.im (matrix.getD gIdx 0) (matrix.getD (gIdx + 1) 0))
        out
  pruneState { st with entries := st.entries.foldl step [] }

/-- JS `apply3QubitGate(gateName, q1, q2, q3, params)`: 8 target rows per source
entry; then swap buffers and prune. -/
def apply3QubitGate (gates : Catalog K) (st : SimState K) (gateName : String)
    (q1 q2 q3 : ℕ) (params : List K) : SimState K :=
  let p1 := st.qubitMap q1
  let p2 := st.qubitMap q2
  let p3 := st.qubitMap q3
  let bit1 := (1 : ℕ) <<< p1
  let bit2 := (1 : ℕ) <<< p2
  let bit3 := (1 : ℕ) <<< p3
  let mask := bit1 ||| bit2 ||| bit3
  let matrix := gates gateName params
  let step : List (Entry K) → Entry K → List (Entry K) := fun out e =>
    let col : ℕ := (if e.idx.testBit p1 then 4 else 0) +
      (if e.idx.testBit p2 then 2 else 0) + (if e.idx.testBit p3 then 1 else 0)
    let base := clearBit (clearBit (clearBit e.idx p1) p2) p3
    let offsets : List ℕ := [0, bit3, bit2, bit2 ||| bit3, bit1, bit1 ||| bit3, bit1 ||| bit2, mask]
    (List.range 8).foldl
      (fun out row =>
        let tIdx := base ||| offsets.getD row 0
        let gIdx := (row * 8 + col) * 2
        scatterMul out tIdx e.re e.im (matrix.getD gIdx 0) (matrix.getD (gIdx + 1) 0))
      out
  pruneState { st with entries := st.entries.foldl step [] }

/-- One target qubit's round of `#applyStochasticNoise`: the gate-error
bit-flip draw, the `t2` phase-flip draw, and (when `t1 > 0`) the amplitude
damping jump-or-damp branch. -/
def applyNoiseQubit (sqrt : K → K) (rng : ℕ → K) (nm : NoiseModel K)
    (acc : SimState K × ℕ) (q : ℕ) : SimState K × ℕ :=
  let st := acc.1
  let n := acc.2
  let pos := st.qubitMap q
  let bit := (1 : ℕ) <<< pos
  let st :=
    if rng n < nm.gateError then
      { st with entries := st.entries.map (fun e => ⟨e.idx ^^^ bit, e.re, e.im⟩) }
    else st
  let n := n + 1
  let zflip : Entry K → Entry K := fun e =>
    if e.idx.testBit pos then ⟨e.idx, -e.re, -e.im⟩ else e
  let st :=
    if rng n < nm.t2 then { st with entries := st.entries.map zflip }
    else st
  let n := n + 1
  if 0 < nm.t1 then
    let p1 := getProb1 st q
    let jumpProb := nm.t1 * p1
    if rng n < jumpProb then
      let st := collapse sqrt st q 1 p1
      ({ st with entries := st.entries.map (fun e => ⟨e.idx ^^^ bit, e.re, e.im⟩) }, n + 1)
    else
      let scale := sqrt (1 - nm.t1)
      let damp : Entry K → Entry K := fun e =>
        if e.idx.testBit pos then ⟨e.idx, e.re * scale, e.im * scale⟩ else e
      (normalize sqrt { st with entries := st.entries.map damp }, n + 1)
  else (st, n)

/-- JS `#applyStochasticNoise(qubit)`: iterate the per-qubit noise channel over
the referenced handles. -/
def applyStochasticNoise (sqrt : K → K) (rng : ℕ → K) (nm : NoiseModel K)
    (st : SimState K) (n : ℕ) (ref : QubitRef) : SimState K × ℕ :=
  ref.refList.foldl (applyNoiseQubit sqrt rng nm) (st, n)

/-- One non-control instruction dispatch of `run` (the arity dispatch, the
`RESET` and `MEASURE` special cases and the default `applyGate` call),
returning the new state, the new draw position, and the `shouldApplyNoise`
flag. -/
def runGateStep (gates : Catalog K) (sqrt : K → K) (rng : ℕ → K)
    (st : SimState K) (n : ℕ) (op : Instr K) : SimState K × ℕ × Bool :=
  let params := op.params
  match op.qubit with
  | .tuple qs =>
    if qs.length = 3 then
      (apply3QubitGate gates st op.gate (qs.getD 0 0) (qs.getD 1 0) (qs.getD 2 0) params,
        n, true)
    else
      (apply2QubitGate gates st op.gate (qs.getD 0 0) (qs.getD 1 0) params, n, true)
  | .single q =>
    if op.gate = "RESET" then
      let m := measure sqrt rng st n q
      let st1 := if m.1 = 1 then applyGate gates m.2.1 "X" q [] else m.2.1
      (pruneState st1, m.2.2, false)
    else if op.gate = "MEASURE" then
      let m := measure sqrt rng st n q
      let st1 := { m.2.1 with results := resultsSet m.2.1.results q m.1 }
      (pruneState st1, m.2.2, false)
    else
      (applyGate gates st op.gate q params, n, true)
  | .nullq => (st, n, true)

/-- JS `run(instructions)` with an explicit fuel bound: sequential
interpretation, recursion into `IF` bodies when the cached result matches,
re-checked `WHILE` iteration, and post-gate noise (followed by a prune) for
noise-eligible instructions when a profile is present.  `none` is returned
when the fuel is exhausted or a control node lacks its condition (the source
would loop further, resp. crash). -/
def runAux (gates : Catalog K) (sqrt : K → K) (rng : ℕ → K) :
    ℕ → SimState K → ℕ → List (Instr K) → Option (SimState K × ℕ)
  | _, st, n, [] => some (st, n)
  | 0, _, _, _ :: _ => none
  | fuel + 1, st, n, op :: rest =>
    if op.gate = "IF" then
      match op.cond with
      | none => none
      | some c =>
        if resultsFind st.results c.qubit = some c.value then
          match runAux gates sqrt rng fuel st n op.body with
          | none => none
          | some (st', n') => runAux gates sqrt rng fuel st' n' rest
        else runAux gates sqrt rng fuel st n rest
    else if op.gate = "WHILE" then
      match op.cond with
      | none => none
      | some c =>
        if resultsFind st.results c.qubit = some c.value then
          match runAux gates sqrt rng fuel st n op.body with
          | none => none
          | some (st', n') => runAux gates sqrt rng fuel st' n' (op :: rest)
        else runAux gates sqrt rng fuel st n rest
    else
      let s := runGateStep gates sqrt rng st n op
      let s' :=
        match st.noiseModel with
        | some nm =>
          if s.2.2 then
            let w := applyStochasticNoise sqrt rng nm s.1 s.2.1 op.qubit
            (pruneState w.1, w.2)
          else (s.1, s.2.1)
        | none => (s.1, s.2.1)
      runAux gates sqrt rng fuel s'.1 s'.2 rest

/-- JS `getResult(qubitId)`: the cached measurement for the handle, if any. -/
def getResult (st : SimState K) (qubitId : ℕ) : Option ℕ :=
  resultsFind st.results qubitId

/-! ## Optimizer (`src/compiler/optimizer.js`) -/

/-- Truncation toward zero, as JS `Number.prototype.%` uses. -/
def jsTrunc [FloorRing K] (x : K) : ℤ :=
  if 0 ≤ x then ⌊x⌋ else ⌈x⌉

/-- The JS remainder `a % b` (sign of the dividend, truncated division). -/
def jsMod [FloorRing K] (a b : K) : K :=
  a - b * (jsTrunc (a / b) : ℤ)

/-- One row of the optimizer's `COMMUTATION_RULES` table. -/
structure CommRule where
  gate : String
  commutesWith : List String
  role : String

/-- The `COMMUTATION_RULES` table. -/
def COMMUTATION_RULES : List CommRule :=
  [ ⟨"Z", ["CNOT", "CZ"], "control"⟩,
    ⟨"S", ["CNOT", "CZ", "T", "RZ"], "control"⟩,
    ⟨"T", ["CNOT", "CZ", "S", "RZ"], "control"⟩,
    ⟨"RZ", ["CNOT", "CZ", "S", "T"], "control"⟩,
    ⟨"X", ["CNOT"], "target"⟩,
    ⟨"RX", ["CNOT"], "target"⟩ ]

/-- The optimizer's `EPSILON` tolerance, `1e-10`. -/
def optEps : K := 1 / 10 ^ 10

/-- JS `#isIdentity(op)`: `RX`/`RY`/`RZ` with angle `≡ 0` or `2π` (mod `2π`,
tolerance `EPSILON`), or `U3` with all parameters `≡ 0 (mod 2π)`; ops with no
params are never identities.  `twoPi` stands for the source's `2 * Math.PI`
(the program instance is `2 * Real.pi`). -/
def isIdentity [FloorRing K] (twoPi : K) (op : Instr K) : Bool :=
  match op.params with
  | [] => false
  | _ =>
    if op.gate = "RX" ∨ op.gate = "RY" ∨ op.gate = "RZ" then
      let angle := |jsMod (op.params.getD 0 0) twoPi|
      decide (angle < optEps ∨ |angle - twoPi| < optEps)
    else if op.gate = "U3" then
      op.params.all (fun p => |jsMod p twoPi| < optEps)
    else false

/-- JS `#areQubitsEqual(q1, q2)`: reference equality for single handles,
element-wise equality for tuples. -/
def areQubitsEqual : QubitRef → QubitRef → Bool
  | .single a, .single b => a = b
  | .tuple a, .tuple b => a = b
  | .nullq, .nullq => true
  | _, _ => false

/-- JS `#canCommute(gateA, gateB)`: disjoint ops always commute; otherwise a
rule must match and the shared qubit must play the rule's role in the
(supposedly) multi-qubit op, determined by comparing element 0 of that op's
qubit reference with the shared qubit.  For a single-handle reference,
element 0 is JS `undefined` (`none`), so the role check fails. -/
def canCommute (gateA gateB : Instr K) : Bool :=
  let qA := gateA.qubit.refList
  let qB := gateB.qubit.refList
  match qA.filter (fun q => q ∈ qB) with
  | [] => true
  | sharedQubit :: _ =>
    let rule? := COMMUTATION_RULES.find? (fun r =>
      (r.gate = gateA.gate ∧ gateB.gate ∈ r.commutesWith) ∨
      (r.gate = gateB.gate ∧ gateA.gate ∈ r.commutesWith))
    match rule? with
    | none => false
    | some rule =>
      let multiQubitGate := if gateA.qubit.isArr then gateA else gateB
      let isControl := multiQubitGate.qubit.idx0 = some sharedQubit
      if rule.role = "control" ∧ isControl then true
      else if rule.role = "target" ∧ ¬ isControl then true
      else false

/-- The wire map: per-handle index trails into the output list, keyed by
handle (a JS `Map` modelled as an association list). -/
abbrev WireMap : Type := List (ℕ × List ℕ)

/-- JS `wireMap.get(q)` with a missing key read as the empty trail. -/
def wmGet (wm : WireMap) (q : ℕ) : List ℕ :=
  match wm.find? (fun p => p.1 = q) with
  | some p => p.2
  | none => []

/-- Replace (or create) the trail for `q`. -/
def wmSet (wm : WireMap) (q : ℕ) (w : List ℕ) : WireMap :=
  if wm.any (fun p => p.1 = q) then
    wm.map (fun p => if p.1 = q then (q, w) else p)
  else wm ++ [(q, w)]

/-- JS `wireMap.get(q).push(newIdx)` (creating the wire when missing). -/
def wmPush (wm : WireMap) (q : ℕ) (idx : ℕ) : WireMap :=
  wmSet wm q (wmGet wm q ++ [idx])

/-- JS `#removeFromWires(idx, op, wireMap)`: drop `idx` from the trail of each
handle of `op`. -/
def removeFromWires {K : Type} (idx : ℕ) (op : Instr K) (wm : WireMap) : WireMap :=
  op.qubit.refList.foldl (fun wm q => wmSet wm q ((wmGet wm q).erase idx)) wm

/-- The backward walk of `#findCommutingPartner` over one wire (given in
most-recent-first order): skip nulled slots, stop with a merge candidate at
the first same-gate-same-qubit op, or stop empty at the first op that cannot
commute. -/
def findPartnerAux (op : Instr K) (optimized : List (Option (Instr K))) :
    List ℕ → Option ℕ
  | [] => none
  | checkIdx :: restRev =>
    match optimized.getD checkIdx none with
    | none => findPartnerAux op optimized restRev
    | some candidate =>
      if candidate.gate = op.gate ∧ areQubitsEqual candidate.qubit op.qubit then
        some checkIdx
      else if ¬ canCommute op candidate then none
      else findPartnerAux op optimized restRev

/-- JS `#findCommutingPartner(op, wireMap, optimized)`: only single-qubit ops
initiate lookback; walk the op's wire from the most recent entry backward. -/
def findCommutingPartner (op : Instr K) (wm : WireMap)
    (optimized : List (Option (Instr K))) : Option ℕ :=
  match op.qubit.refList with
  | [q] => findPartnerAux op optimized (wmGet wm q).reverse
  | _ => none

/-- JS `#mergeGates(partnerIdx, op, optimized, wireMap)`: add the rotation
angles mod `2π` into the partner slot; null the slot (and clean the wires)
when the merged op became an identity. -/
def mergeGates [FloorRing K] (twoPi : K) (partnerIdx : ℕ) (op : Instr K)
    (optimized : List (Option (Instr K))) (wm : WireMap) :
    List (Option (Instr K)) × WireMap :=
  match optimized.getD partnerIdx none with
  | none => (optimized, wm)
  | some partner =>
    let partner :=
      if op.gate = "RX" ∨ op.gate = "RY" ∨ op.gate = "RZ" then
        Instr.mk partner.gate partner.qubit
          (partner.params.set 0 (jsMod (partner.params.getD 0 0 + op.params.getD 0 0) twoPi))
          partner.cond partner.body
      else partner
    if isIdentity twoPi partner then
      (optimized.set partnerIdx none, removeFromWires partnerIdx partner wm)
    else
      (optimized.set partnerIdx (some partner), wm)

/-- The self-inverse gate list of `prune`. -/
def selfInverses : List String := ["H", "X", "Y", "Z", "CNOT", "CZ", "SWAP"]

/-- The forward sweep of `Optimizer.prune`: identity elimination, partner
lookup, merge/cancel behaviours, and append-with-wire-recording. -/
def pruneAux [FloorRing K] (twoPi : K) :
    List (Instr K) → WireMap → List (Option (Instr K)) → List (Option (Instr K))
  | [], _, optimized => optimized
  | op :: rest, wm, optimized =>
    if isIdentity twoPi op then pruneAux twoPi rest wm optimized
    else
      match findCommutingPartner op wm optimized with
      | some partnerIdx =>
        match optimized.getD partnerIdx none with
        | none => pruneAux twoPi rest wm optimized
        | some partner =>
          if op.gate = "RX" ∨ op.gate = "RY" ∨ op.gate = "RZ" then
            let m := mergeGates twoPi partnerIdx op optimized wm
            pruneAux twoPi rest m.2 m.1
          else if op.gate = "S" ∧ partner.gate = "S" then
            let partner' := Instr.mk "Z" partner.qubit partner.params partner.cond partner.body
            pruneAux twoPi rest wm (optimized.set partnerIdx (some partner'))
          else if op.gate = "T" ∧ partner.gate = "T" then
            let partner' := Instr.mk "S" partner.qubit partner.params partner.cond partner.body
            pruneAux twoPi rest wm (optimized.set partnerIdx (some partner'))
          else if op.gate = partner.gate ∧ op.gate ∈ selfInverses then
            pruneAux twoPi rest (removeFromWires partnerIdx partner wm)
              (optimized.set partnerIdx none)
          else
            let newIdx := optimized.length
            let wm' := op.qubit.refList.foldl (fun wm q => wmPush wm q newIdx) wm
            pruneAux twoPi rest wm' (optimized ++ [some op])
      | none =>
        let newIdx := optimized.length
        let wm' := op.qubit.refList.foldl (fun wm q => wmPush wm q newIdx) wm
        pruneAux twoPi rest wm' (optimized ++ [some op])

/-- JS `Optimizer.prune(instructions)`: the forward sweep followed by the final
filter dropping nulled slots and residual identities. -/
def Optimizer.prune [FloorRing K] (twoPi : K) (instructions : List (Instr K)) :
    List (Instr K) :=
  (pruneAux twoPi instructions [] []).filterMap id |>.filter
    (fun op => ¬ isIdentity twoPi op)

/-! ## Transpiler (`src/compiler/transpiler.js`) -/

/-- JS `Transpiler.#decompose(op)`: expansion of one instruction into the native
basis `{U3, CNOT}`.  `piK` stands for the source's `Math.PI` (the program
instance is `Real.pi`).  The tuple destructurings of `SWAP`/`CZ` read
elements 0 and 1 of the qubit tuple; a malformed non-tuple reference there
would crash the source and is passed through here. -/
def decompose (piK : K) (op : Instr K) : List (Instr K) :=
  let params := op.params
  if op.gate = "H" then [mkInstr "U3" op.qubit [piK / 2, 0, piK]]
  else if op.gate = "X" then [mkInstr "U3" op.qubit [piK, 0, piK]]
  else if op.gate = "Y" then [mkInstr "U3" op.qubit [piK, piK / 2, piK / 2]]
  else if op.gate = "Z" then [mkInstr "U3" op.qubit [0, 0, piK]]
  else if op.gate = "RX" then [mkInstr "U3" op.qubit [params.getD 0 0, -(piK / 2), piK / 2]]
  else if op.gate = "RY" then [mkInstr "U3" op.qubit [params.getD 0 0, 0, 0]]
  else if op.gate = "RZ" then [mkInstr "U3" op.qubit [0, 0, params.getD 0 0]]
  else if op.gate = "SWAP" then
    match op.qubit with
    | .tuple qs =>
      let q1 := qs.getD 0 0
      let q2 := qs.getD 1 0
      [mkInstr "CNOT" (.tuple [q1, q2]) [], mkInstr "CNOT" (.tuple [q2, q1]) [],
        mkInstr "CNOT" (.tuple [q1, q2]) []]
    | _ => [op]
  else if op.gate = "CZ" then
    match op.qubit with
    | .tuple qs =>
      let ctrl := qs.getD 0 0
      let trgt := qs.getD 1 0
      [mkInstr "U3" (.single trgt) [piK / 2, 0, piK],
        mkInstr "CNOT" (.tuple [ctrl, trgt]) [],
        mkInstr "U3" (.single trgt) [piK / 2, 0, piK]]
    | _ => [op]
  else [op]

/-- JS `Transpiler.transpile(instructions)`: concatenate the decompositions of
the instructions in order. -/
def Transpiler.transpile (piK : K) (instructions : List (Instr K)) : List (Instr K) :=
  (instructions.map (decompose piK)).flatten

/-! ## Qubit manager and operation recorder (`src/api/*.js`) -/

/-- JS `QubitManager.isAllocated(id)`: membership in the live registry (the JS
`Set` is modelled by the list of its elements). -/
def isAllocated (registry : List ℕ) (id : ℕ) : Bool := id ∈ registry

/-- JS `QubitManager.release(id, simulator)`: fatal error unless
`simulator.isZero(id)`; otherwise delete `id` from the registry.  The error
is modelled as a returned message alongside the (unchanged) registry, since a
JS `throw` preserves all mutations made before it. -/
def release (registry : List ℕ) (st : SimState K) (id : ℕ) :
    List ℕ × Option String :=
  if ¬ isZero st id then
    (registry, some "Fatal Error: Qubit must be reset to |0> before release.")
  else (registry.filter (fun x => x ≠ id), none)

/-- JS `circuit.addOp(gate, qubit, options)`: append one instruction node. -/
def addOp (c : List (Instr K)) (gate : String) (qubit : QubitRef)
    (params : List K) (cond : Option Condition) (body : List (Instr K)) :
    List (Instr K) :=
  c ++ [Instr.mk gate qubit params cond body]

/-- The recorder's `validate(q)` outcome: the usage error when the handle is
not allocated. -/
def validate (registry : List ℕ) (q : ℕ) : Option String :=
  if ¬ isAllocated registry q then
    some "Usage Error: Qubit is not allocated in this scope."
  else none

/-- A single-qubit recorder operation (`h`, `x`, `y`, `z`, `s`, `t`,
`reset`): validate, then append.  Returns the IR buffer as left by the call
and the thrown error, if any. -/
def opSingle (gate : String) (registry : List ℕ) (c : List (Instr K))
    (q : ℕ) : List (Instr K) × Option String :=
  match validate registry q with
  | some e => (c, some e)
  | none => (addOp c gate (.single q) [] none [], none)

/-- A one-angle rotation recorder operation (`rx`, `ry`, `rz`). -/
def opRot (gate : String) (registry : List ℕ) (c : List (Instr K))
    (q : ℕ) (theta : K) : List (Instr K) × Option String :=
  match validate registry q with
  | some e => (c, some e)
  | none => (addOp c gate (.single q) [theta] none [], none)

/-- JS `ops.u3(q, theta, phi, lambda)`. -/
def opU3 (registry : List ℕ) (c : List (Instr K)) (q : ℕ)
    (theta phi lambda : K) : List (Instr K) × Option String :=
  match validate registry q with
  | some e => (c, some e)
  | none => (addOp c "U3" (.single q) [theta, phi, lambda] none [], none)

/-- JS `ops.cnot(ctrl, trgt)`: validate both handles, reject a self-control,
then append. -/
def opCnot (registry : List ℕ) (c : List (Instr K)) (ctrl trgt : ℕ) :
    List (Instr K) × Option String :=
  match validate registry ctrl with
  | some e => (c, some e)
  | none =>
    match validate registry trgt with
    | some e => (c, some e)
    | none =>
      if ctrl = trgt then
        (c, some "Quantum Physics Error: Qubit cannot control itself.")
      else (addOp c "CNOT" (.tuple [ctrl, trgt]) [] none [], none)

/-- JS `ops.cz(ctrl, trgt)`: validate both handles, reject a self-control, then
append. -/
def opCz (registry : List ℕ) (c : List (Instr K)) (ctrl trgt : ℕ) :
    List (Instr K) × Option String :=
  match validate registry ctrl with
  | some e => (c, some e)
  | none =>
    match validate registry trgt with
    | some e => (c, some e)
    | none =>
      if ctrl = trgt then
        (c, some "Quantum Physics Error: Qubit cannot control itself.")
      else (addOp c "CZ" (.tuple [ctrl, trgt]) [] none [], none)

/-- JS `ops.rzz(q1, q2, theta)`: validate both handles, then append — there is
no distinctness check. -/
def opRzz (registry : List ℕ) (c : List (Instr K)) (q1 q2 : ℕ) (theta : K) :
    List (Instr K) × Option String :=
  match validate registry q1 with
  | some e => (c, some e)
  | none =>
    match validate registry q2 with
    | some e => (c, some e)
    | none => (addOp c "RZZ" (.tuple [q1, q2]) [theta] none [], none)

/-- JS `ops.swap(q1, q2)`: validate both handles, reject a self-swap, then
append. -/
def opSwap (registry : List ℕ) (c : List (Instr K)) (q1 q2 : ℕ) :
    List (Instr K) × Option String :=
  match validate registry q1 with
  | some e => (c, some e)
  | none =>
    match validate registry q2 with
    | some e => (c, some e)
    | none =>
      if q1 = q2 then
        (c, some "Usage Error: Cannot swap a qubit with itself.")
      else (addOp c "SWAP" (.tuple [q1, q2]) [] none [], none)

/-- JS `ops.ccx(c1, c2, t)`: validate the three handles, then append — there is
no distinctness check. -/
def opCcx (registry : List ℕ) (c : List (Instr K)) (c1 c2 t : ℕ) :
    List (Instr K) × Option String :=
  match validate registry c1 with
  | some e => (c, some e)
  | none =>
    match validate registry c2 with
    | some e => (c, some e)
    | none =>
      match validate registry t with
      | some e => (c, some e)
      | none => (addOp c "CCX" (.tuple [c1, c2, t]) [] none [], none)

/-- JS `ops.if(qubit, value, callback)`: validate the condition qubit, build
the inner IR by invoking the callback on a fresh sub-circuit, then append one
`IF` node whose body is the inner IR snapshot.  The callback's effect is
abstracted as its outcome: the inner instruction list it recorded, or the
error it threw (a thrown callback propagates before the node is appended). -/
def opIf (registry : List ℕ) (c : List (Instr K)) (qubit value : ℕ)
    (callbackResult : List (Instr K) ⊕ String) : List (Instr K) × Option String :=
  match validate registry qubit with
  | some e => (c, some e)
  | none =>
    match callbackResult with
    | .inr e => (c, some e)
    | .inl body => (addOp c "IF" .nullq [] (some ⟨qubit, value⟩) body, none)

/-- JS `ops.while(qubit, value, callback)`: as `ops.if`, appending a `WHILE`
node. -/
def opWhile (registry : List ℕ) (c : List (Instr K)) (qubit value : ℕ)
    (callbackResult : List (Instr K) ⊕ String) : List (Instr K) × Option String :=
  match validate registry qubit with
  | some e => (c, some e)
  | none =>
    match callbackResult with
    | .inr e => (c, some e)
    | .inl body => (addOp c "WHILE" .nullq [] (some ⟨qubit, value⟩) body, none)

/-- The exact-valued entries of the `GATES` catalog (`gate-defs.js`): the
matrices whose coefficients are field rationals (`X`, `Z`, `S`, `CNOT`,
`CZ`, `SWAP`, `CCX`).  The remaining catalog entries (`H`, `Y`, `T` and the
parameterized trigonometric families) involve `√2`, `i` or `cos`/`sin` and
are not needed by any concrete execution below; the simulator takes the
catalog as an explicit parameter, so theorems either quantify over it or use
this one. -/
def GATES0 : Catalog K := fun name _params =>
  if name = "X" then [0, 0, 1, 0, 1, 0, 0, 0]
  else if name = "Z" then [1, 0, 0, 0, 0, 0, -1, 0]
  else if name = "S" then [1, 0, 0, 0, 0, 0, 0, 1]
  else if name = "CNOT" then
    [1, 0, 0, 0, 0, 0, 0, 0,
     0, 0, 1, 0, 0, 0, 0, 0,
     0, 0, 0, 0, 0, 0, 1, 0,
     0, 0, 0, 0, 1, 0, 0, 0]
  else if name = "CZ" then
    [1, 0, 0, 0, 0, 0, 0, 0,
     0, 0, 1, 0, 0, 0, 0, 0,
     0, 0, 0, 0, 1, 0, 0, 0,
     0, 0, 0, 0, 0, 0, -1, 0]
  else if name = "SWAP" then
    [1, 0, 0, 0, 0, 0, 0, 0,
     0, 0, 0, 0, 1, 0, 0, 0,
     0, 0, 1, 0, 0, 0, 0, 0,
     0, 0, 0, 0, 0, 0, 1, 0]
  else if name = "CCX" then
    [1,0,0,0,0,0,0,0,0,0,0,0,0,0,0,0,
     0,0,1,0,0,0,0,0,0,0,0,0,0,0,0,0,
     0,0,0,0,1,0,0,0,0,0,0,0,0,0,0,0,
     0,0,0,0,0,0,1,0,0,0,0,0,0,0,0,0,
     0,0,0,0,0,0,0,0,1,0,0,0,0,0,0,0,
     0,0,0,0,0,0,0,0,0,0,1,0,0,0,0,0,
     0,0,0,0,0,0,0,0,0,0,0,0,0,0,1,0,
     0,0,0,0,0,0,0,0,0,0,0,0,1,0,0,0]
  else []

/-- The basis indices of a buffer, in order. -/
def entryKeys (l : List (Entry K)) : List ℕ := l.map Entry.idx

/-! ## Theorems -/

/-- An op whose `params` list is empty is never an identity
(`#isIdentity` returns `false` before touching the angle arithmetic). -/
lemma isIdentity_mk_nil [FloorRing K] (twoPi : K) (g : String) (r : QubitRef)
    (c : Option Condition) (b : List (Instr K)) :
    isIdentity twoPi (Instr.mk g r ([] : List K) c b) = false := rfl

/-- C3: `prune [S(q), S(q)]` rewrites the partner to a single `Z` and
`prune [T(q), T(q)]` rewrites it to a single `S`, for every qubit handle and
every value of the `2π` constant. -/
theorem prune_ss_to_z_and_tt_to_s [FloorRing K] (twoPi : K) (q : ℕ) :
    Optimizer.prune twoPi [mkInstr "S" (.single q) ([] : List K), mkInstr "S" (.single q) []] =
      [mkInstr "Z" (.single q) []] ∧
    Optimizer.prune twoPi [mkInstr "T" (.single q) ([] : List K), mkInstr "T" (.single q) []] =
      [mkInstr "S" (.single q) []] := by
  constructor <;>
  simp [Optimizer.prune, pruneAux, isIdentity_mk_nil, mkInstr,
    findCommutingPartner, findPartnerAux, canCommute, COMMUTATION_RULES,
    areQubitsEqual, QubitRef.refList, QubitRef.isArr, QubitRef.idx0,
    wmGet, wmSet, wmPush, mergeGates, removeFromWires, selfInverses,
    Instr.gate, Instr.qubit, Instr.params, Instr.cond, Instr.body]

/-- Fact: `prune` on `[RZ(q,a), S(q), RZ(q,b)]` with non-identity angles returns
the list unchanged: the role check of `#canCommute` fails for the
single-handle candidates, so the `S` closes the lookback window. -/
lemma prune_rz_s_rz_aux [FloorRing K] (twoPi : K) (q : ℕ) (a b : K)
    (ha : isIdentity twoPi (mkInstr "RZ" (.single q) [a]) = false)
    (hb : isIdentity twoPi (mkInstr "RZ" (.single q) [b]) = false) :
    Optimizer.prune twoPi
      [mkInstr "RZ" (.single q) [a], mkInstr "S" (.single q) [], mkInstr "RZ" (.single q) [b]] =
      [mkInstr "RZ" (.single q) [a], mkInstr "S" (.single q) [], mkInstr "RZ" (.single q) [b]] := by
  simp only [mkInstr] at ha hb
  simp [Optimizer.prune, pruneAux, isIdentity_mk_nil, ha, hb, mkInstr,
    findCommutingPartner, findPartnerAux, canCommute, COMMUTATION_RULES,
    areQubitsEqual, QubitRef.refList, QubitRef.isArr, QubitRef.idx0,
    wmGet, wmSet, wmPush, mergeGates, removeFromWires, selfInverses,
    Instr.gate, Instr.qubit, Instr.params, Instr.cond, Instr.body]

/-- C2 (amended): the `S` between the two `RZ` gates closes the lookback
window — `#canCommute` compares `qubit[0]` of the single-handle candidate
(JS `undefined`) with the shared qubit, so the role check fails — and
`prune` returns the three instructions unchanged whenever neither `RZ` angle
is an identity. -/
theorem prune_rz_s_rz_unchanged [FloorRing K] (twoPi : K) (q : ℕ) (a b : K)
    (ha : isIdentity twoPi (mkInstr "RZ" (.single q) [a]) = false)
    (hb : isIdentity twoPi (mkInstr "RZ" (.single q) [b]) = false) :
    Optimizer.prune twoPi
      [mkInstr "RZ" (.single q) [a], mkInstr "S" (.single q) [], mkInstr "RZ" (.single q) [b]] =
      [mkInstr "RZ" (.single q) [a], mkInstr "S" (.single q) [], mkInstr "RZ" (.single q) [b]] :=
  prune_rz_s_rz_aux twoPi q a b ha hb

/-- The angle 1 (radian) is not an optimizer identity at the program's
constant `2π`. -/
lemma isIdentity_rz_one_real :
    isIdentity (2 * Real.pi) (mkInstr "RZ" (.single 0) [(1 : ℝ)]) = false := by
  have h1 : (3 : ℝ) < Real.pi := Real.pi_gt_three
  have hfloor : (⌊(1 : ℝ) / (2 * Real.pi)⌋ : ℤ) = 0 := by
    rw [Int.floor_eq_zero_iff]
    constructor
    · positivity
    · rw [div_lt_one (by positivity)]
      nlinarith
  have hmod : jsMod (1 : ℝ) (2 * Real.pi) = 1 := by
    rw [jsMod, jsTrunc, if_pos (by positivity), hfloor]
    simp
  simp only [isIdentity, mkInstr, Instr.params, Instr.gate, optEps,
    Option.getD_some, List.getD_cons_zero, if_true, or_true, Option.getD]
  norm_num [hmod]
  rw [abs_of_nonpos (by nlinarith), neg_sub]
  nlinarith

/-- C2 (amended, witness): a concrete evaluation at `K = ℚ` with `2π`
read as `7` and both angles equal to `1`. -/
theorem prune_rz_s_rz_unchanged_witness :
    isIdentity (7 : ℚ) (mkInstr "RZ" (.single 0) [(1 : ℚ)]) = false ∧
    Optimizer.prune (7 : ℚ)
        [mkInstr "RZ" (.single 0) [(1 : ℚ)], mkInstr "S" (.single 0) [],
          mkInstr "RZ" (.single 0) [1]] =
      [mkInstr "RZ" (.single 0) [(1 : ℚ)], mkInstr "S" (.single 0) [],
        mkInstr "RZ" (.single 0) [1]] := by
  have hid : isIdentity (7 : ℚ) (mkInstr "RZ" (.single 0) [(1 : ℚ)]) = false := by
    norm_num [isIdentity, mkInstr, Instr.params, Instr.gate, jsMod, jsTrunc, optEps]
  exact ⟨hid, prune_rz_s_rz_unchanged 7 0 1 1 hid hid⟩

/-- C2 (counterexample): at the program instance (`K = ℝ`,
`2π = 2 * Real.pi`), `prune [RZ(0,1), S(0), RZ(0,1)]` returns the three
instructions unchanged — the two `RZ` gates are not merged through the `S`
even though `1 + 1 ≢ 0 (mod 2π)`. -/
theorem prune_rz_s_rz_counterexample :
    Optimizer.prune (2 * Real.pi)
        [mkInstr "RZ" (.single 0) [(1 : ℝ)], mkInstr "S" (.single 0) [],
          mkInstr "RZ" (.single 0) [1]] =
      [mkInstr "RZ" (.single 0) [(1 : ℝ)], mkInstr "S" (.single 0) [],
        mkInstr "RZ" (.single 0) [1]] ∧
    Optimizer.prune (2 * Real.pi)
        [mkInstr "RZ" (.single 0) [(1 : ℝ)], mkInstr "S" (.single 0) [],
          mkInstr "RZ" (.single 0) [1]] ≠
      [mkInstr "RZ" (.single 0) [jsMod ((1 : ℝ) + 1) (2 * Real.pi)],
        mkInstr "S" (.single 0) []] := by
  have h := prune_rz_s_rz_aux (2 * Real.pi) 0 (1 : ℝ) 1
    isIdentity_rz_one_real isIdentity_rz_one_real
  refine ⟨h, ?_⟩
  rw [h]
  intro hc
  have := congrArg List.length hc
  simp at this

/-- C4: `transpile` expands each instruction independently and in order, and
`#decompose` realises exactly the decomposition table: `H`, `X`, `Y`, `Z`,
`RX(θ)`, `RY(θ)`, `RZ(θ)` to single `U3`s, `SWAP` to three `CNOT`s, `CZ` to
`U3`–`CNOT`–`U3`, and every other gate name passes through unchanged. -/
theorem transpile_decomposition_table (piK : K) :
    (Transpiler.transpile piK ([] : List (Instr K)) = [] ∧
      ∀ (op : Instr K) (rest : List (Instr K)),
        Transpiler.transpile piK (op :: rest) =
          decompose piK op ++ Transpiler.transpile piK rest) ∧
    (∀ (r : QubitRef) (p : List K),
      decompose piK (mkInstr "H" r p) = [mkInstr "U3" r [piK / 2, 0, piK]] ∧
      decompose piK (mkInstr "X" r p) = [mkInstr "U3" r [piK, 0, piK]] ∧
      decompose piK (mkInstr "Y" r p) = [mkInstr "U3" r [piK, piK / 2, piK / 2]] ∧
      decompose piK (mkInstr "Z" r p) = [mkInstr "U3" r [0, 0, piK]]) ∧
    (∀ (r : QubitRef) (θ : K),
      decompose piK (mkInstr "RX" r [θ]) = [mkInstr "U3" r [θ, -(piK / 2), piK / 2]] ∧
      decompose piK (mkInstr "RY" r [θ]) = [mkInstr "U3" r [θ, 0, 0]] ∧
      decompose piK (mkInstr "RZ" r [θ]) = [mkInstr "U3" r [0, 0, θ]]) ∧
    (∀ a b : ℕ,
      decompose piK (mkInstr "SWAP" (.tuple [a, b]) ([] : List K)) =
        [mkInstr "CNOT" (.tuple [a, b]) [], mkInstr "CNOT" (.tuple [b, a]) [],
          mkInstr "CNOT" (.tuple [a, b]) []] ∧
      decompose piK (mkInstr "CZ" (.tuple [a, b]) ([] : List K)) =
        [mkInstr "U3" (.single b) [piK / 2, 0, piK],
          mkInstr "CNOT" (.tuple [a, b]) [],
          mkInstr "U3" (.single b) [piK / 2, 0, piK]]) ∧
    (∀ op : Instr K,
      op.gate ∉ ["H", "X", "Y", "Z", "RX", "RY", "RZ", "SWAP", "CZ"] →
      decompose piK op = [op]) := by
  refine ⟨⟨rfl, fun op rest => rfl⟩, fun r p => ⟨rfl, rfl, rfl, rfl⟩,
    fun r θ => ⟨rfl, rfl, rfl⟩, fun a b => ⟨rfl, rfl⟩, fun op h => ?_⟩
  simp only [List.mem_cons, List.not_mem_nil, or_false, not_or] at h
  obtain ⟨h1, h2, h3, h4, h5, h6, h7, h8, h9⟩ := h
  simp [decompose, h1, h2, h3, h4, h5, h6, h7, h8, h9]

/-- C4 (witness): the pass-through case applied to a concrete `CCX`
instruction over `ℚ`. -/
theorem transpile_decomposition_table_witness :
    (mkInstr "CCX" (.tuple [0, 1, 2]) ([] : List ℚ)).gate ∉
        ["H", "X", "Y", "Z", "RX", "RY", "RZ", "SWAP", "CZ"] ∧
    decompose (3 : ℚ) (mkInstr "CCX" (.tuple [0, 1, 2]) ([] : List ℚ)) =
      [mkInstr "CCX" (.tuple [0, 1, 2]) ([] : List ℚ)] := by
  have hmem : (mkInstr "CCX" (.tuple [0, 1, 2]) ([] : List ℚ)).gate ∉
      ["H", "X", "Y", "Z", "RX", "RY", "RZ", "SWAP", "CZ"] := by
    simp [mkInstr, Instr.gate]
  exact ⟨hmem, ((transpile_decomposition_table (3 : ℚ)).2.2.2.2) _ hmem⟩

/-- C5 (counterexample): a simulator constructed with the manual override
`epsilon = 0` does not use `0` as its effective epsilon — the constructor's
`options.epsilon || null` treats `0` as absent, so the adaptive default
`1e-13` applies (at the program instance `K = ℝ`, fresh one-qubit state). -/
theorem epsilon_zero_override_counterexample :
    getEffectiveEpsilon (Simulator.init ([0] : List ℕ) none (some (0 : ℝ))) = 1 / 10 ^ 13 ∧
    (1 / 10 ^ 13 : ℝ) ≠ 0 := by
  constructor
  · simp only [Simulator.init, getEffectiveEpsilon, memoryBudget]
    norm_num
  · norm_num

/-- C5 (amended): `isZero` is the strict comparison of the summed
probability of 1 against the effective epsilon; a *nonzero* manual override
is kept by the constructor and is the effective epsilon, while an override
equal to `0` is discarded by `options.epsilon || null`; without a (kept)
override the effective epsilon is `100 × (1e-15 × max(1, activeCount /
5000))`. -/
theorem isZero_and_effective_epsilon :
    (∀ (st : SimState K) (q : ℕ),
      isZero st q = true ↔ getProb1 st q < getEffectiveEpsilon st) ∧
    (∀ st : SimState K, st.epsilon = none →
      getEffectiveEpsilon st =
        (1 / 10 ^ 15 * max 1 ((st.entries.length : K) / 5000)) * 100) ∧
    (∀ (qs : List ℕ) (noise : Option (NoiseModel K)) (e : K), e ≠ 0 →
      (Simulator.init qs noise (some e)).epsilon = some e) ∧
    (∀ (st : SimState K) (e : K), st.epsilon = some e →
      getEffectiveEpsilon st = e) ∧
    (∀ (qs : List ℕ) (noise : Option (NoiseModel K)),
      (Simulator.init qs noise (some (0 : K))).epsilon = none) := by
  refine ⟨fun st q => ?_, fun st h => ?_, fun qs noise e he => ?_,
    fun st e h => ?_, fun qs noise => ?_⟩
  · simp [isZero]
  · simp only [getEffectiveEpsilon, h, memoryBudget]
    norm_num
  · simp [Simulator.init, he]
  · simp [getEffectiveEpsilon, h]
  · simp [Simulator.init]

/-- C5 (amended, witness): concrete evaluations over `ℚ`: a fresh simulator
with the nonzero override `1/2` keeps it, and `isZero` holds on the fresh
state iff `0 < ε`. -/
theorem isZero_and_effective_epsilon_witness :
    (Simulator.init ([0] : List ℕ) none (some ((1 : ℚ) / 2))).epsilon = some (1 / 2) ∧
    getEffectiveEpsilon (Simulator.init ([0] : List ℕ) none (some ((1 : ℚ) / 2))) = 1 / 2 ∧
    (isZero (Simulator.init ([0] : List ℕ) none (some ((1 : ℚ) / 2))) 0 = true ↔
      getProb1 (Simulator.init ([0] : List ℕ) none (some ((1 : ℚ) / 2))) 0 <
        getEffectiveEpsilon (Simulator.init ([0] : List ℕ) none (some ((1 : ℚ) / 2)))) := by
  have h1 := (isZero_and_effective_epsilon (K := ℚ)).2.2.1 [0] none ((1 : ℚ) / 2) (by norm_num)
  exact ⟨h1, (isZero_and_effective_epsilon (K := ℚ)).2.2.2.1 _ _ h1,
    (isZero_and_effective_epsilon (K := ℚ)).1 _ 0⟩

/-- C7: `release` fails exactly when the simulator does not report the
handle as `|0⟩`; a failing release leaves the registry (and thus the
allocation status of the handle) unchanged, and a successful release removes
the handle from the live set. -/
theorem release_safety (st : SimState K) (registry : List ℕ) (h : ℕ)
    (hmem : h ∈ registry) :
    ((release registry st h).2.isSome = true ↔ isZero st h = false) ∧
    ((release registry st h).2.isSome = true →
      (release registry st h).1 = registry ∧ isAllocated (release registry st h).1 h = true) ∧
    ((release registry st h).2 = none →
      isAllocated (release registry st h).1 h = false) := by
  by_cases hz : isZero st h
  · simp [release, hz, isAllocated, List.mem_filter]
  · simp only [Bool.not_eq_true] at hz
    simp [release, hz, isAllocated, hmem]

/-- C7 (witness): releasing the only handle of a fresh one-qubit simulator
over `ℚ` (which is `|0⟩`) succeeds and removes it from the live set. -/
theorem release_safety_witness :
    (0 : ℕ) ∈ ([0] : List ℕ) ∧
    ((release ([0] : List ℕ) (Simulator.init ([0] : List ℕ) (none : Option (NoiseModel ℚ)) none) 0).2 = none →
      isAllocated (release ([0] : List ℕ) (Simulator.init ([0] : List ℕ) (none : Option (NoiseModel ℚ)) none) 0).1 0 = false) := by
  exact ⟨by decide,
    (release_safety (Simulator.init ([0] : List ℕ) (none : Option (NoiseModel ℚ)) none) [0] 0 (by decide)).2.2⟩

/-- C9: every recorder operation validates before appending, so a call that
throws (unallocated handle, self-control for `cnot`/`cz`, self-swap) leaves
the IR buffer exactly as it was. -/
theorem recorder_error_leaves_ir_unchanged (registry : List ℕ)
    (c : List (Instr K)) (g : String) (q q' q'' : ℕ) (θ φ lam : K) :
    ((opSingle g registry c q).2.isSome = true → (opSingle g registry c q).1 = c) ∧
    ((opRot g registry c q θ).2.isSome = true → (opRot g registry c q θ).1 = c) ∧
    ((opU3 registry c q θ φ lam).2.isSome = true → (opU3 registry c q θ φ lam).1 = c) ∧
    ((opCnot registry c q q').2.isSome = true → (opCnot registry c q q').1 = c) ∧
    ((opCz registry c q q').2.isSome = true → (opCz registry c q q').1 = c) ∧
    ((opRzz registry c q q' θ).2.isSome = true → (opRzz registry c q q' θ).1 = c) ∧
    ((opSwap registry c q q').2.isSome = true → (opSwap registry c q q').1 = c) ∧
    ((opCcx registry c q q' q'').2.isSome = true → (opCcx registry c q q' q'').1 = c) ∧
    (∀ cb : List (Instr K) ⊕ String,
      (opIf registry c q q' cb).2.isSome = true → (opIf registry c q q' cb).1 = c) ∧
    (∀ cb : List (Instr K) ⊕ String,
      (opWhile registry c q q' cb).2.isSome = true → (opWhile registry c q q' cb).1 = c) := by
  repeat' constructor
  all_goals intro hs
  · unfold opSingle at hs ⊢
    rcases h : validate registry q with _ | e <;> simp [h] at hs ⊢
  · unfold opRot at hs ⊢
    rcases h : validate registry q with _ | e <;> simp [h] at hs ⊢
  · unfold opU3 at hs ⊢
    rcases h : validate registry q with _ | e <;> simp [h] at hs ⊢
  · unfold opCnot at hs ⊢
    rcases h : validate registry q with _ | e <;>
      rcases h' : validate registry q' with _ | e' <;>
        by_cases hq : q = q' <;> simp [h, h', hq] at hs ⊢
  · unfold opCz at hs ⊢
    rcases h : validate registry q with _ | e <;>
      rcases h' : validate registry q' with _ | e' <;>
        by_cases hq : q = q' <;> simp [h, h', hq] at hs ⊢
  · unfold opRzz at hs ⊢
    rcases h : validate registry q with _ | e <;>
      rcases h' : validate registry q' with _ | e' <;> simp [h, h'] at hs ⊢
  · unfold opSwap at hs ⊢
    rcases h : validate registry q with _ | e <;>
      rcases h' : validate registry q' with _ | e' <;>
        by_cases hq : q = q' <;> simp [h, h', hq] at hs ⊢
  · unfold opCcx at hs ⊢
    rcases h : validate registry q with _ | e <;>
      rcases h' : validate registry q' with _ | e' <;>
        rcases h'' : validate registry q'' with _ | e'' <;> simp [h, h', h''] at hs ⊢
  · intro hcb
    unfold opIf at hcb ⊢
    rcases h : validate registry q with _ | e <;> rcases hs with body | e' <;>
      simp [h] at hcb ⊢
  · intro hcb
    unfold opWhile at hcb ⊢
    rcases h : validate registry q with _ | e <;> rcases hs with body | e' <;>
      simp [h] at hcb ⊢

/-- C9 (witness): a failing `cnot` (self-control) on a concrete buffer over
`ℚ` leaves the buffer unchanged. -/
theorem recorder_error_leaves_ir_unchanged_witness :
    (opCnot ([0] : List ℕ) ([mkInstr "H" (.single 0) []] : List (Instr ℚ)) 0 0).2.isSome = true ∧
    (opCnot ([0] : List ℕ) ([mkInstr "H" (.single 0) []] : List (Instr ℚ)) 0 0).1 =
      [mkInstr "H" (.single 0) []] := by
  have hs : (opCnot ([0] : List ℕ) ([mkInstr "H" (.single 0) []] : List (Instr ℚ)) 0 0).2.isSome = true := by
    simp [opCnot, validate, isAllocated]
  exact ⟨hs,
    (recorder_error_leaves_ir_unchanged [0] [mkInstr "H" (.single 0) []] "H" 0 0 0
      (0 : ℚ) 0 0).2.2.2.1 hs⟩

/-- C10: `ccx` and `rzz` perform no qubit-distinctness check — with an
allocated handle `q`, `ccx(q,q,q)` and `rzz(q,q,θ)` succeed and append the
`CCX`/`RZZ` instruction — whereas `cnot`, `cz` and `swap` reject repeated
qubits. -/
theorem ccx_rzz_allow_repeated_qubits (registry : List ℕ)
    (c : List (Instr K)) (q : ℕ) (θ : K) (hq : q ∈ registry) :
    opCcx registry c q q q = (c ++ [mkInstr "CCX" (.tuple [q, q, q]) []], none) ∧
    opRzz registry c q q θ = (c ++ [mkInstr "RZZ" (.tuple [q, q]) [θ]], none) ∧
    (opCnot registry c q q).2.isSome = true ∧
    (opCz registry c q q).2.isSome = true ∧
    (opSwap registry c q q).2.isSome = true := by
  have hv : validate registry q = none := by simp [validate, isAllocated, hq]
  refine ⟨?_, ?_, ?_, ?_, ?_⟩ <;>
    simp [opCcx, opRzz, opCnot, opCz, opSwap, hv, addOp, mkInstr]

/-- C10 (witness): concrete evaluation over `ℚ` with the allocated handle
`0` and an empty buffer. -/
theorem ccx_rzz_allow_repeated_qubits_witness :
    (0 : ℕ) ∈ ([0] : List ℕ) ∧
    opCcx ([0] : List ℕ) ([] : List (Instr ℚ)) 0 0 0 =
      ([mkInstr "CCX" (.tuple [0, 0, 0]) []], none) ∧
    (opSwap ([0] : List ℕ) ([] : List (Instr ℚ)) 0 0).2.isSome = true := by
  have h := ccx_rzz_allow_repeated_qubits ([0] : List ℕ) ([] : List (Instr ℚ)) 0 (0 : ℚ)
    (by decide)
  exact ⟨by decide, by simpa using h.1, h.2.2.2.2⟩

/-- Fact: `#prune` does not touch the result cache. -/
lemma pruneState_results (st : SimState K) : (pruneState st).results = st.results := rfl

/-- Fact: `#collapse` does not touch the result cache. -/
lemma collapse_results (sqrt : K → K) (st : SimState K) (q r : ℕ) (p : K) :
    (collapse sqrt st q r p).results = st.results := rfl

/-- Fact: `applyGate` does not touch the result cache. -/
lemma applyGate_results (gates : Catalog K) (st : SimState K) (g : String)
    (q : ℕ) (params : List K) :
    (applyGate gates st g q params).results = st.results := rfl

/-- Fact: `measure` does not touch the result cache (only the `MEASURE` dispatch of
`run` writes it). -/
lemma measure_results (sqrt : K → K) (rng : ℕ → K) (st : SimState K) (n q : ℕ) :
    (measure sqrt rng st n q).2.1.results = st.results := by
  rcases h : st.noiseModel with _ | nm <;> simp [measure, collapse, h]

/-- Executing a `RESET` instruction under `run` is exactly: measure, apply
`X` when the result was 1, prune — with the draw counter advanced only by the
measurement and with no noise application. -/
lemma runAux_reset_eq (gates : Catalog K) (sqrt : K → K) (rng : ℕ → K)
    (fuel : ℕ) (st : SimState K) (n : ℕ) (q : ℕ) (rest : List (Instr K)) :
    runAux gates sqrt rng (fuel + 1) st n (mkInstr "RESET" (.single q) [] :: rest) =
      runAux gates sqrt rng fuel
        (pruneState (if (measure sqrt rng st n q).1 = 1
            then applyGate gates (measure sqrt rng st n q).2.1 "X" q []
            else (measure sqrt rng st n q).2.1))
        (measure sqrt rng st n q).2.2 rest := by
  rcases h : st.noiseModel with _ | nm <;>
    simp [runAux, runGateStep, mkInstr, Instr.gate, Instr.qubit, Instr.params,
      Instr.cond, Instr.body, h]

/-- The state left by the `RESET` dispatch carries the original result
cache. -/
lemma runAux_reset_results (gates : Catalog K) (sqrt : K → K) (rng : ℕ → K)
    (st : SimState K) (n : ℕ) (q : ℕ) :
    (pruneState (if (measure sqrt rng st n q).1 = 1
        then applyGate gates (measure sqrt rng st n q).2.1 "X" q []
        else (measure sqrt rng st n q).2.1)).results = st.results := by
  rw [pruneState_results]
  by_cases hr : (measure sqrt rng st n q).1 = 1
  · rw [if_pos hr, applyGate_results, measure_results]
  · rw [if_neg hr, measure_results]

/-- C1 (amended): a `RESET` on qubit `q` behaves as "measure; if 1 apply X;
prune", does not trigger the noise channel (the interpretation continues
directly with the rest of the list, with no noise draws), and does *not*
update the measurement result cache — the cache after the `RESET` step is
exactly the cache before it (only `MEASURE` writes the cache). -/
theorem run_reset_semantics (gates : Catalog K) (sqrt : K → K) (rng : ℕ → K)
    (fuel : ℕ) (st : SimState K) (n : ℕ) (q : ℕ) (rest : List (Instr K)) :
    runAux gates sqrt rng (fuel + 1) st n (mkInstr "RESET" (.single q) [] :: rest) =
      runAux gates sqrt rng fuel
        (pruneState (if (measure sqrt rng st n q).1 = 1
            then applyGate gates (measure sqrt rng st n q).2.1 "X" q []
            else (measure sqrt rng st n q).2.1))
        (measure sqrt rng st n q).2.2 rest ∧
    (pruneState (if (measure sqrt rng st n q).1 = 1
        then applyGate gates (measure sqrt rng st n q).2.1 "X" q []
        else (measure sqrt rng st n q).2.1)).results = st.results :=
  ⟨runAux_reset_eq gates sqrt rng fuel st n q rest,
    runAux_reset_results gates sqrt rng st n q⟩

/-- C1 (counterexample): at the program instance (`K = ℝ`, `Real.sqrt`),
running `[RESET q]` on a fresh one-qubit simulator leaves the result cache
empty: a later `IF`/`WHILE` condition check or `getResult` finds no cached
value for `q`, contradicting "RESET updates the measurement result cache". -/
theorem reset_does_not_update_cache_counterexample :
    (runAux (GATES0 : Catalog ℝ) Real.sqrt (fun _ => 0) 1
        (Simulator.init [0] none none) 0 [mkInstr "RESET" (.single 0) []]).map
      (fun p => getResult p.1 0) = some none := by
  have h := runAux_reset_eq (GATES0 : Catalog ℝ) Real.sqrt (fun _ => 0) 0
    (Simulator.init [0] none none) 0 0 []
  rw [show (1 : ℕ) = 0 + 1 from rfl, h]
  have hres := runAux_reset_results (GATES0 : Catalog ℝ) Real.sqrt (fun _ => 0)
    (Simulator.init [0] none none) 0 0
  simp only [runAux, Option.map_some']
  rw [getResult, hres]
  rfl

/-- C6: with a noise profile saturating `gateError = 1` (and the other three
probabilities 0), running "apply X then measure" on one qubit yields 0 for
every draw sequence of the RNG: the post-gate coherent bit-flip fires with
certainty and undoes the `X` before the measurement. -/
theorem gate_error_saturated_x_measures_zero (gates : Catalog K)
    (sqrt : K → K) (rng : ℕ → K)
    (hX : gates "X" [] = [0, 0, 1, 0, 1, 0, 0, 0])
    (hrng : ∀ m, 0 ≤ rng m ∧ rng m < 1) (q : ℕ) (fuel : ℕ) :
    (runAux gates sqrt rng (fuel + 2)
        (Simulator.init [q] (some ⟨1, 0, 0, 0⟩) none) 0
        [mkInstr "X" (.single q) [], mkInstr "MEASURE" (.single q) []]).map
      (fun p => getResult p.1 q) = some (some 0) := by
  have h0 : rng 0 < 1 := (hrng 0).2
  have h1 : ¬ (rng 1 < 0) := not_lt.2 (hrng 1).1
  have h2 : ¬ (rng 2 < 0) := not_lt.2 (hrng 2).1
  have h3 : ¬ (rng 3 < 0) := not_lt.2 (hrng 3).1
  have h3' : 0 ≤ rng 3 := (hrng 3).1
  have hm1 : max (1 : K) (1 / 5000) = 1 := max_eq_left (by norm_num)
  have hm2 : max (1 : K) (2 / 5000) = 1 := max_eq_left (by norm_num)
  have hth0 : ¬ ((1 : K) / 1000000000000000 * 1 ≤ 0 ^ 2 + 0 ^ 2) := by norm_num
  have hth1 : ((1 : K) / 1000000000000000 * 1 ≤ 1 ^ 2 + 0 ^ 2) := by norm_num
  have ha : (((10 : K) ^ 15)⁻¹ ≤ 1 ^ 2 + 0 ^ 2) := by norm_num
  have hb : ¬ (((10 : K) ^ 15)⁻¹ ≤ 0 ^ 2 + 0 ^ 2) := by norm_num
  have hc : (((10 : K) ^ 15)⁻¹ * 1 ≤ 1 ^ 2 + 0 ^ 2) := by norm_num
  have hd : ¬ (((10 : K) ^ 15)⁻¹ * 1 ≤ 0 ^ 2 + 0 ^ 2) := by norm_num
  have he : (((10 : K) ^ 15)⁻¹ ≤ 1) := by norm_num
  have hf : ¬ (((10 : K) ^ 15)⁻¹ ≤ 0) := by norm_num
  have hg : (((10 : K) ^ 15)⁻¹ * 1 ≤ 1) := by norm_num
  have hh : ¬ (((10 : K) ^ 15)⁻¹ * 1 ≤ 0) := by norm_num
  have hm1' : (1 : K) ⊔ (5000 : K)⁻¹ = 1 := max_eq_left (by norm_num)
  have hm2' : (1 : K) ⊔ (2 : K) / 5000 = 1 := max_eq_left (by norm_num)
  simp [runAux, runGateStep, applyGate, scatterMul, scatterAdd, pruneState,
    applyStochasticNoise, applyNoiseQubit, measure, collapse, getProb1,
    resultsSet, resultsFind, getResult, Simulator.init, normalize, clearBit,
    mkInstr, Instr.gate, Instr.qubit, Instr.params, Instr.cond, Instr.body,
    QubitRef.refList, memoryBudget, hX, h0, h1, h2, h3, h3', hm1, hm2,
    hth0, hth1, ha, hb, hc, hd, he, hf, hg, hh, hm1', hm2',
    List.indexOf_cons_self, List.range_succ, List.range_zero,
    List.foldl_cons, List.foldl_nil, List.foldl_append,
    List.filter_cons, List.filter_nil, List.map_cons, List.map_nil,
    Nat.testBit, Nat.shiftRight_zero]

/-- C6 (witness): concrete evaluation over `ℚ` with the `GATES0` catalog,
handle `0`, the constant-zero draw stream, and fuel 2. -/
theorem gate_error_saturated_x_measures_zero_witness :
    (GATES0 : Catalog ℚ) "X" [] = [0, 0, 1, 0, 1, 0, 0, 0] ∧
    (∀ m : ℕ, 0 ≤ (fun _ => (0 : ℚ)) m ∧ (fun _ => (0 : ℚ)) m < 1) ∧
    (runAux (GATES0 : Catalog ℚ) (fun _ => 0) (fun _ => 0) 2
        (Simulator.init [0] (some ⟨1, 0, 0, 0⟩) none) 0
        [mkInstr "X" (.single 0) [], mkInstr "MEASURE" (.single 0) []]).map
      (fun p => getResult p.1 0) = some (some 0) := by
  have hX : (GATES0 : Catalog ℚ) "X" [] = [0, 0, 1, 0, 1, 0, 0, 0] := rfl
  have hrng : ∀ m : ℕ, 0 ≤ (fun _ => (0 : ℚ)) m ∧ (fun _ => (0 : ℚ)) m < 1 :=
    fun m => ⟨le_refl 0, by norm_num⟩
  exact ⟨hX, hrng,
    gate_error_saturated_x_measures_zero (GATES0 : Catalog ℚ) (fun _ => 0)
      (fun _ => 0) hX hrng 0 0⟩

/-- Generic preservation of a predicate along `List.foldl`. -/
lemma foldl_preserve {α β : Type} (P : β → Prop) (f : β → α → β)
    (hf : ∀ b a, P b → P (f b a)) :
    ∀ (l : List α) (b : β), P b → P (l.foldl f b)
  | [], b, hb => hb
  | a :: l, b, hb => foldl_preserve P f hf l (f b a) (hf b a hb)

/-- Fact: `scatterAdd` preserves distinctness of the buffer's basis indices: a hit
accumulates in place, a miss appends a fresh index. -/
lemma scatterAdd_nodup (out : List (Entry K)) (idx : ℕ) (re im : K)
    (h : (entryKeys out).Nodup) : (entryKeys (scatterAdd out idx re im)).Nodup := by
  unfold scatterAdd
  by_cases hmem : out.any (fun e => e.idx = idx)
  · rw [if_pos hmem]
    have : entryKeys (out.map (fun e =>
        if e.idx = idx then ⟨e.idx, e.re + re, e.im + im⟩ else e)) = entryKeys out := by
      unfold entryKeys
      rw [List.map_map]
      apply List.map_congr_left
      intro e _
      by_cases he : e.idx = idx <;> simp [he]
    rw [this]
    exact h
  · rw [if_neg hmem]
    unfold entryKeys
    rw [List.map_append]
    simp only [List.map_cons, List.map_nil]
    rw [List.nodup_append]
    refine ⟨h, List.nodup_singleton idx, ?_⟩
    intro a ha
    simp only [List.any_eq_true, decide_eq_true_eq] at hmem
    push_neg at hmem
    simp only [entryKeys, List.mem_map] at ha
    obtain ⟨e, he, rfl⟩ := ha
    simp only [List.mem_singleton]
    exact hmem e he

/-- Fact: `scatterMul` preserves index distinctness. -/
lemma scatterMul_nodup (out : List (Entry K)) (tIdx : ℕ) (re im gRe gIm : K)
    (h : (entryKeys out).Nodup) :
    (entryKeys (scatterMul out tIdx re im gRe gIm)).Nodup :=
  scatterAdd_nodup _ _ _ _ h

/-- Fact: `#prune` keeps a sublist, so it preserves index distinctness. -/
lemma pruneState_nodup (st : SimState K)
    (h : (entryKeys st.entries).Nodup) :
    (entryKeys (pruneState st).entries).Nodup := by
  unfold pruneState entryKeys
  exact h.sublist (List.Sublist.map _ (List.filter_sublist _))

/-- Fact: `#collapse` filters entries and rescales amplitudes in place, so it
preserves index distinctness. -/
lemma collapse_nodup (sqrt : K → K) (st : SimState K) (q r : ℕ) (p : K)
    (h : (entryKeys st.entries).Nodup) :
    (entryKeys (collapse sqrt st q r p).entries).Nodup := by
  unfold collapse entryKeys
  simp only [List.map_map]
  exact h.sublist (List.Sublist.map _ (List.filter_sublist _))

/-- A single-gate scatter buffer, built from the empty buffer by
`scatterAdd`/`scatterMul` steps, always has pairwise distinct indices. -/
lemma applyGate_nodup (gates : Catalog K) (st : SimState K) (g : String)
    (q : ℕ) (params : List K) :
    (entryKeys (applyGate gates st g q params).entries).Nodup := by
  unfold applyGate
  apply pruneState_nodup
  apply foldl_preserve (fun out => (entryKeys out).Nodup)
  · intro out e hout
    dsimp only
    by_cases hz : g = "Z"
    · rw [if_pos hz]
      exact scatterAdd_nodup _ _ _ _ hout
    · rw [if_neg hz]
      apply foldl_preserve (fun out => (entryKeys out).Nodup)
      · intro out' row h'
        exact scatterMul_nodup _ _ _ _ _ _ h'
      · exact hout
  · simp [entryKeys]

/-- Fact: `apply2QubitGate` always leaves pairwise distinct indices. -/
lemma apply2QubitGate_nodup (gates : Catalog K) (st : SimState K) (g : String)
    (q1 q2 : ℕ) (params : List K) :
    (entryKeys (apply2QubitGate gates st g q1 q2 params).entries).Nodup := by
  unfold apply2QubitGate
  apply pruneState_nodup
  apply foldl_preserve (fun out => (entryKeys out).Nodup)
  · intro out e hout
    dsimp only
    by_cases hz : g = "CZ"
    · rw [if_pos hz]
      exact scatterAdd_nodup _ _ _ _ hout
    · rw [if_neg hz]
      by_cases hcs : g = "CNOT" ∨ g = "SWAP"
      · rw [if_pos hcs]
        exact scatterAdd_nodup _ _ _ _ hout
      · rw [if_neg hcs]
        apply foldl_preserve (fun out => (entryKeys out).Nodup)
        · intro out' row h'
          exact scatterMul_nodup _ _ _ _ _ _ h'
        · exact hout
  · simp [entryKeys]

/-- Fact: `apply3QubitGate` always leaves pairwise distinct indices. -/
lemma apply3QubitGate_nodup (gates : Catalog K) (st : SimState K) (g : String)
    (q1 q2 q3 : ℕ) (params : List K) :
    (entryKeys (apply3QubitGate gates st g q1 q2 q3 params).entries).Nodup := by
  unfold apply3QubitGate
  apply pruneState_nodup
  apply foldl_preserve (fun out => (entryKeys out).Nodup)
  · intro out e hout
    apply foldl_preserve (fun out => (entryKeys out).Nodup)
    · intro out' row h'
      exact scatterMul_nodup _ _ _ _ _ _ h'
    · exact hout
  · simp [entryKeys]

/-- Fact: `measure` collapses the state, preserving index distinctness. -/
lemma measure_nodup (sqrt : K → K) (rng : ℕ → K) (st : SimState K) (n q : ℕ)
    (h : (entryKeys st.entries).Nodup) :
    (entryKeys (measure sqrt rng st n q).2.1.entries).Nodup := by
  rcases hm : st.noiseModel with _ | nm <;>
    · simp only [measure, hm]
      exact collapse_nodup _ _ _ _ _ h

/-- Fact: `#normalize` rescales amplitudes in place, preserving indices. -/
lemma normalize_nodup (sqrt : K → K) (st : SimState K)
    (h : (entryKeys st.entries).Nodup) :
    (entryKeys (normalize sqrt st).entries).Nodup := by
  unfold normalize entryKeys
  simp only [List.map_map]
  exact h

/-- Mapping a XOR over all indices is injective on indices, preserving
distinctness. -/
lemma xor_map_nodup (l : List (Entry K)) (bit : ℕ)
    (h : (entryKeys l).Nodup) :
    (entryKeys (l.map (fun e => (⟨e.idx ^^^ bit, e.re, e.im⟩ : Entry K)))).Nodup := by
  unfold entryKeys at h ⊢
  rw [List.map_map]
  have : ((fun e : Entry K => e.idx) ∘ fun e : Entry K => (⟨e.idx ^^^ bit, e.re, e.im⟩ : Entry K)) =
      (fun n => n ^^^ bit) ∘ (fun e : Entry K => e.idx) := rfl
  rw [this, ← List.map_map]
  refine h.map ?_
  intro a b hab
  have := congrArg (fun x => x ^^^ bit) hab
  simpa [Nat.xor_assoc] using this

/-- Mapping an index-preserving function over a buffer keeps the key list
unchanged. -/
lemma map_idx_preserve_nodup (l : List (Entry K)) (f : Entry K → Entry K)
    (hf : ∀ e, (f e).idx = e.idx) (h : (entryKeys l).Nodup) :
    (entryKeys (l.map f)).Nodup := by
  unfold entryKeys at h ⊢
  rw [List.map_map]
  have : l.map ((fun e : Entry K => e.idx) ∘ f) = l.map (fun e : Entry K => e.idx) :=
    List.map_congr_left (fun e _ => hf e)
  rw [this]
  exact h

/-- One qubit's noise round preserves index distinctness. -/
lemma applyNoiseQubit_nodup (sqrt : K → K) (rng : ℕ → K) (nm : NoiseModel K)
    (acc : SimState K × ℕ) (q : ℕ)
    (h : (entryKeys acc.1.entries).Nodup) :
    (entryKeys (applyNoiseQubit sqrt rng nm acc q).1.entries).Nodup := by
  unfold applyNoiseQubit
  dsimp only
  have h1 : (entryKeys (if rng acc.2 < nm.gateError then
      { acc.1 with entries := acc.1.entries.map (fun e => (⟨e.idx ^^^ 1 <<< acc.1.qubitMap q, e.re, e.im⟩ : Entry K)) }
      else acc.1).entries).Nodup := by
    split
    · exact xor_map_nodup _ _ h
    · exact h
  generalize hst1 : (if rng acc.2 < nm.gateError then
      { acc.1 with entries := acc.1.entries.map (fun e => (⟨e.idx ^^^ 1 <<< acc.1.qubitMap q, e.re, e.im⟩ : Entry K)) }
      else acc.1) = st1 at h1 ⊢
  have h2 : (entryKeys (if rng (acc.2 + 1) < nm.t2 then
      { st1 with entries := st1.entries.map (fun e => if e.idx.testBit (acc.1.qubitMap q) then (⟨e.idx, -e.re, -e.im⟩ : Entry K) else e) }
      else st1).entries).Nodup := by
    split
    · exact map_idx_preserve_nodup _ _ (fun e => by split <;> rfl) h1
    · exact h1
  generalize hst2 : (if rng (acc.2 + 1) < nm.t2 then
      { st1 with entries := st1.entries.map (fun e => if e.idx.testBit (acc.1.qubitMap q) then (⟨e.idx, -e.re, -e.im⟩ : Entry K) else e) }
      else st1) = st2 at h2 ⊢
  split
  · split
    · exact xor_map_nodup _ _ (collapse_nodup _ _ _ _ _ h2)
    · exact normalize_nodup _ _ (map_idx_preserve_nodup _ _
        (fun e => by split <;> rfl) h2)
  · exact h2

/-- The whole noise channel preserves index distinctness. -/
lemma applyStochasticNoise_nodup (sqrt : K → K) (rng : ℕ → K)
    (nm : NoiseModel K) (st : SimState K) (n : ℕ) (ref : QubitRef)
    (h : (entryKeys st.entries).Nodup) :
    (entryKeys (applyStochasticNoise sqrt rng nm st n ref).1.entries).Nodup := by
  unfold applyStochasticNoise
  exact foldl_preserve (fun acc => (entryKeys acc.1.entries).Nodup) _
    (fun acc q hacc => applyNoiseQubit_nodup sqrt rng nm acc q hacc) _ (st, n) h

/-- The non-control dispatch of `run` preserves index distinctness. -/
lemma runGateStep_nodup (gates : Catalog K) (sqrt : K → K) (rng : ℕ → K)
    (st : SimState K) (n : ℕ) (op : Instr K)
    (h : (entryKeys st.entries).Nodup) :
    (entryKeys (runGateStep gates sqrt rng st n op).1.entries).Nodup := by
  unfold runGateStep
  rcases op.qubit with q | qs
  · dsimp only
    split
    · apply pruneState_nodup
      split
      · exact applyGate_nodup _ _ _ _ _
      · exact measure_nodup _ _ _ _ _ h
    split
    · exact pruneState_nodup _ (measure_nodup _ _ _ _ _ h)
    · exact applyGate_nodup _ _ _ _ _
  · dsimp only
    split
    · exact apply3QubitGate_nodup _ _ _ _ _ _ _
    · exact apply2QubitGate_nodup _ _ _ _ _ _
  · exact h

/-- Fact: `run` preserves index distinctness through every instruction, including
`IF`/`WHILE` recursion and the noise channel. -/
lemma runAux_nodup (gates : Catalog K) (sqrt : K → K) (rng : ℕ → K) :
    ∀ (fuel : ℕ) (prog : List (Instr K)) (st : SimState K) (n : ℕ)
      (st' : SimState K) (n' : ℕ),
      (entryKeys st.entries).Nodup →
      runAux gates sqrt rng fuel st n prog = some (st', n') →
      (entryKeys st'.entries).Nodup := by
  intro fuel
  induction fuel with
  | zero =>
    intro prog st n st' n' h hrun
    cases prog with
    | nil =>
      simp only [runAux, Option.some.injEq, Prod.mk.injEq] at hrun
      rw [← hrun.1]
      exact h
    | cons op rest => simp [runAux] at hrun
  | succ fuel ih =>
    intro prog
    induction prog with
    | nil =>
      intro st n st' n' h hrun
      simp only [runAux, Option.some.injEq, Prod.mk.injEq] at hrun
      rw [← hrun.1]
      exact h
    | cons op rest ihrest =>
      intro st n st' n' h hrun
      rw [runAux] at hrun
      by_cases hif : op.gate = "IF"
      · rw [if_pos hif] at hrun
        rcases hc : op.cond with _ | c
        · simp only [hc] at hrun
          exact absurd hrun (by simp)
        · simp only [hc] at hrun
          by_cases hcv : resultsFind st.results c.qubit = some c.value
          · rw [if_pos hcv] at hrun
            rcases hbody : runAux gates sqrt rng fuel st n op.body with _ | ⟨st1, n1⟩
            · simp only [hbody] at hrun
              exact absurd hrun (by simp)
            · simp only [hbody] at hrun
              exact ih rest st1 n1 st' n'
                (ih op.body st n st1 n1 h hbody) hrun
          · rw [if_neg hcv] at hrun
            exact ih rest st n st' n' h hrun
      · rw [if_neg hif] at hrun
        by_cases hwh : op.gate = "WHILE"
        · rw [if_pos hwh] at hrun
          rcases hc : op.cond with _ | c
          · simp only [hc] at hrun
            exact absurd hrun (by simp)
          · simp only [hc] at hrun
            by_cases hcv : resultsFind st.results c.qubit = some c.value
            · rw [if_pos hcv] at hrun
              rcases hbody : runAux gates sqrt rng fuel st n op.body with _ | ⟨st1, n1⟩
              · simp only [hbody] at hrun
                exact absurd hrun (by simp)
              · simp only [hbody] at hrun
                exact ih (op :: rest) st1 n1 st' n'
                  (ih op.body st n st1 n1 h hbody) hrun
            · rw [if_neg hcv] at hrun
              exact ih rest st n st' n' h hrun
        · rw [if_neg hwh] at hrun
          have hstep := runGateStep_nodup gates sqrt rng st n op h
          rcases hnm : st.noiseModel with _ | nm
          · simp only [hnm] at hrun
            exact ih rest _ _ st' n' hstep hrun
          · simp only [hnm] at hrun
            by_cases hfl : (runGateStep gates sqrt rng st n op).2.2 = true
            · rw [if_pos hfl] at hrun
              exact ih rest _ _ st' n'
                (pruneState_nodup _ (applyStochasticNoise_nodup _ _ _ _ _ _ hstep)) hrun
            · rw [if_neg hfl] at hrun
              exact ih rest _ _ st' n' hstep hrun

/-- C8: after every state-mutating simulator operation — the three gate
appliers, `measure`, and `run` over any instruction list (with or without a
noise profile, which is part of the state) — the basis indices of the active
entries are pairwise distinct; the initial state also satisfies the
invariant. -/
theorem simulator_indices_pairwise_distinct (gates : Catalog K)
    (sqrt : K → K) (rng : ℕ → K) :
    (∀ (qs : List ℕ) (noise : Option (NoiseModel K)) (eps : Option K),
      (entryKeys (Simulator.init qs noise eps).entries).Nodup) ∧
    (∀ (st : SimState K) (g : String) (q : ℕ) (params : List K),
      (entryKeys (applyGate gates st g q params).entries).Nodup) ∧
    (∀ (st : SimState K) (g : String) (q1 q2 : ℕ) (params : List K),
      (entryKeys (apply2QubitGate gates st g q1 q2 params).entries).Nodup) ∧
    (∀ (st : SimState K) (g : String) (q1 q2 q3 : ℕ) (params : List K),
      (entryKeys (apply3QubitGate gates st g q1 q2 q3 params).entries).Nodup) ∧
    (∀ (st : SimState K) (n q : ℕ), (entryKeys st.entries).Nodup →
      (entryKeys (measure sqrt rng st n q).2.1.entries).Nodup) ∧
    (∀ (fuel : ℕ) (prog : List (Instr K)) (st : SimState K) (n : ℕ)
        (st' : SimState K) (n' : ℕ), (entryKeys st.entries).Nodup →
      runAux gates sqrt rng fuel st n prog = some (st', n') →
      (entryKeys st'.entries).Nodup) :=
  ⟨fun qs noise eps => by simp [Simulator.init, entryKeys],
    fun st g q params => applyGate_nodup gates st g q params,
    fun st g q1 q2 params => apply2QubitGate_nodup gates st g q1 q2 params,
    fun st g q1 q2 q3 params => apply3QubitGate_nodup gates st g q1 q2 q3 params,
    fun st n q h => measure_nodup sqrt rng st n q h,
    fun fuel prog st n st' n' h hrun => runAux_nodup gates sqrt rng fuel prog st n st' n' h hrun⟩

/-- C8 (witness): over `ℚ`, the fresh one-qubit state has distinct indices,
and measuring it preserves the invariant. -/
theorem simulator_indices_pairwise_distinct_witness :
    (entryKeys (Simulator.init ([0] : List ℕ) (none : Option (NoiseModel ℚ)) none).entries).Nodup ∧
    (entryKeys (measure (fun _ => (0 : ℚ)) (fun _ => 0)
        (Simulator.init ([0] : List ℕ) (none : Option (NoiseModel ℚ)) none) 0 0).2.1.entries).Nodup := by
  have h : (entryKeys (Simulator.init ([0] : List ℕ) (none : Option (NoiseModel ℚ)) none).entries).Nodup := by
    simp [Simulator.init, entryKeys]
  exact ⟨h,
    (simulator_indices_pairwise_distinct (GATES0 : Catalog ℚ) (fun _ => 0)
      (fun _ => 0)).2.2.2.2.1 _ 0 0 h⟩

end Qubits
